import Mathlib

/-!
Verification development for the socket-serve session/channel/delivery
subsystem.  The definitions below are a shallow embedding of the TypeScript
source:

* `RedisKeys` embeds src/redis/keys.ts (the key namespace).
* `RVal`/`REntry`/`RedisState` model the single Redis keyspace: each key
  holds at most one typed value together with an optional TTL.  JSON
  serialization of session records and messages is value-faithful, so stored
  strings are represented by the structured values they encode.  WRONGTYPE
  errors of the real store are modelled as no-ops; theorems that need
  well-typed keys carry explicit well-formedness hypotheses.
* `RedisStateManager` embeds src/redis/state-manager.ts (the basic manager;
  the Upstash manager issues the same commands for the operations treated
  here, pipelined into one request).
* `Effect`, `broadcastToRoomEffects` embed the delivery operations of
  src/server/enhanced-socket.ts as effect traces.
* `AckState`/`ackStep` embed the acknowledgment-callback registry of
  ServerSocketImpl/EnhancedServerSocket (emit / handleAck / the 5 s timeout).
* `handleConnect`, `handleDisconnectE` embed the lifecycle controller of
  src/server/socket.ts (EnhancedSocketServer).
* `clientHandleMessage`, `dedupeCleanup`, `handleReconnect` embed the client
  state machine of src/client/enhanced-socket.ts.
-/

/-! ## Key namespace (src/redis/keys.ts) -/

namespace RedisKeys

def keyPrefix : String := "ss"

def session (sessionId : String) : String := keyPrefix ++ ":" ++ sessionId ++ ":state"

def queue (sessionId : String) : String := keyPrefix ++ ":" ++ sessionId ++ ":queue"

def version (sessionId : String) : String := keyPrefix ++ ":" ++ sessionId ++ ":ver"

def processed (sessionId : String) : String := keyPrefix ++ ":" ++ sessionId ++ ":processed"

def channel (sessionId : String) : String := keyPrefix ++ ":channel:" ++ sessionId

def rooms (room : String) : String := keyPrefix ++ ":room:" ++ room

def sessionRooms (sessionId : String) : String := keyPrefix ++ ":" ++ sessionId ++ ":rooms"

end RedisKeys

/-! ## Data model (src/types.ts) -/

/-- Session record as stored under the session-state key (SessionState in
src/types.ts); `data` is the open string-keyed bag, values kept opaque as
strings. -/
structure SessionState where
  id : String
  createdAt : Nat
  lastActivity : Nat
  data : List (String × String)
deriving DecidableEq, Repr

/-- Wire message envelope (SocketMessage in src/types.ts); the payload is
kept opaque as a string. -/
structure SocketMessage where
  event : String
  data : String
  timestamp : Nat
  sessionId : String
  messageId : Option String
  requiresAck : Bool
deriving DecidableEq, Repr

/-- One field-wise partial session record (Partial SessionState in the
TypeScript source); a `some` field overrides the current record on merge. -/
structure SessionUpdates where
  id : Option String
  createdAt : Option Nat
  lastActivity : Option Nat
  data : Option (List (String × String))
deriving DecidableEq, Repr

/-! ## Redis keyspace model -/

/-- Typed value held at one Redis key: a serialized session record, a list
(message queue), or a set (room indices).  Set values are kept as
insertion-ordered duplicate-free lists, matching Redis set observability. -/
inductive RVal where
  | rsess : SessionState → RVal
  | rlist : List SocketMessage → RVal
  | rset : List String → RVal
deriving DecidableEq, Repr

/-- A key's entry: its value and its remaining TTL (none = no expiry). -/
structure REntry where
  val : RVal
  ttl : Option Nat
deriving DecidableEq, Repr

/-- The whole keyspace. -/
def RedisState := String → Option REntry

/-- The empty keyspace. -/
def emptyRedis : RedisState := fun _ => none

/-- Point update of the keyspace. -/
def setKey (st : RedisState) (k : String) (e : Option REntry) : RedisState :=
  fun k2 => if k2 = k then e else st k2

/-- SETEX of a serialized session record. -/
def setexSession (st : RedisState) (k : String) (ttl : Nat) (s : SessionState) : RedisState :=
  setKey st k (some ⟨RVal.rsess s, some ttl⟩)

/-- GET of a key expected to hold a serialized session record; absent or
differently-typed keys read as absent. -/
def getSessionVal (st : RedisState) (k : String) : Option SessionState :=
  match st k with
  | some e =>
    match e.val with
    | RVal.rsess s => some s
    | _ => none
  | none => none

/-- DEL. -/
def delKey (st : RedisState) (k : String) : RedisState := setKey st k none

/-- RPUSH of one serialized message: appends, creating the list if the key is
absent; a WRONGTYPE error is modelled as a no-op. -/
def rpushMsg (st : RedisState) (k : String) (m : SocketMessage) : RedisState :=
  match st k with
  | none => setKey st k (some ⟨RVal.rlist [m], none⟩)
  | some e =>
    match e.val with
    | RVal.rlist l => setKey st k (some ⟨RVal.rlist (l ++ [m]), e.ttl⟩)
    | _ => st

/-- EXPIRE: resets the TTL of an existing key; no-op on an absent key. -/
def expireKey (st : RedisState) (k : String) (t : Nat) : RedisState :=
  match st k with
  | none => st
  | some e => setKey st k (some ⟨e.val, some t⟩)

/-- LRANGE key 0 -1: the full list; absent or differently-typed keys read as
empty. -/
def lrangeAll (st : RedisState) (k : String) : List SocketMessage :=
  match st k with
  | some e =>
    match e.val with
    | RVal.rlist l => l
    | _ => []
  | none => []

/-- SADD of one member: creates the set if the key is absent, no-op if the
member is already present; a WRONGTYPE error is modelled as a no-op. -/
def saddKey (st : RedisState) (k : String) (x : String) : RedisState :=
  match st k with
  | none => setKey st k (some ⟨RVal.rset [x], none⟩)
  | some e =>
    match e.val with
    | RVal.rset l => if x ∈ l then st else setKey st k (some ⟨RVal.rset (l ++ [x]), e.ttl⟩)
    | _ => st

/-- SREM of one member; no-op on an absent key; a WRONGTYPE error is modelled
as a no-op. -/
def sremKey (st : RedisState) (k : String) (x : String) : RedisState :=
  match st k with
  | none => st
  | some e =>
    match e.val with
    | RVal.rset l => setKey st k (some ⟨RVal.rset (l.erase x), e.ttl⟩)
    | _ => st

/-- SMEMBERS; absent or differently-typed keys read as empty. -/
def smembersKey (st : RedisState) (k : String) : List String :=
  match st k with
  | some e =>
    match e.val with
    | RVal.rset l => l
    | _ => []
  | none => []

/-- The key is absent or holds a duplicate-free set (the only states a
set-family key can reach through the real store's SADD/SREM). -/
def isWfSet (st : RedisState) (k : String) : Bool :=
  match st k with
  | none => true
  | some e =>
    match e.val with
    | RVal.rset l => decide l.Nodup
    | _ => false

/-- The key is absent or holds a list (the only states a queue key can reach
through the real store's RPUSH/DEL). -/
def isListLike (st : RedisState) (k : String) : Bool :=
  match st k with
  | none => true
  | some e =>
    match e.val with
    | RVal.rlist _ => true
    | _ => false

/-! ## State manager operations (src/redis/state-manager.ts) -/

/-- Configuration of the state manager: the session TTL (constructor default
3600 s). -/
structure RedisStateManager where
  ttl : Nat
deriving DecidableEq, Repr

namespace RedisStateManager

/-- createSession: SETEX a fresh record with both timestamps at the current
time and an empty data bag. -/
def createSession (mgr : RedisStateManager) (sessionId : String) (now : Nat)
    (st : RedisState) : RedisState × SessionState :=
  let state : SessionState := ⟨sessionId, now, now, []⟩
  (setexSession st (RedisKeys.session sessionId) mgr.ttl state, state)

/-- getSession: GET then parse; absent reads as none. -/
def getSession (sessionId : String) (st : RedisState) : Option SessionState :=
  getSessionVal st (RedisKeys.session sessionId)

/-- The object-spread merge of updateSession: present update fields override
the current record, then lastActivity is overridden with the current time. -/
def applyUpdates (cur : SessionState) (u : SessionUpdates) (now : Nat) : SessionState :=
  { id := u.id.getD cur.id
    createdAt := u.createdAt.getD cur.createdAt
    lastActivity := now
    data := u.data.getD cur.data }

/-- updateSession: read-modify-write; silently dropped when the record is
absent; SETEX rewrites the merged record with the full configured TTL. -/
def updateSession (mgr : RedisStateManager) (sessionId : String) (u : SessionUpdates)
    (now : Nat) (st : RedisState) : RedisState :=
  match getSession sessionId st with
  | none => st
  | some cur => setexSession st (RedisKeys.session sessionId) mgr.ttl (applyUpdates cur u now)

/-- deleteSession: DEL of the session-state key only. -/
def deleteSession (sessionId : String) (st : RedisState) : RedisState :=
  delKey st (RedisKeys.session sessionId)

/-- enqueueMessage: RPUSH the serialized message, then EXPIRE the queue key
to the configured TTL. -/
def enqueueMessage (mgr : RedisStateManager) (sessionId : String) (m : SocketMessage)
    (st : RedisState) : RedisState :=
  expireKey (rpushMsg st (RedisKeys.queue sessionId) m) (RedisKeys.queue sessionId) mgr.ttl

/-- dequeueMessages: LRANGE 0 -1 then DEL, returning the parsed messages and
the resulting keyspace. -/
def dequeueMessages (sessionId : String) (st : RedisState) :
    List SocketMessage × RedisState :=
  (lrangeAll st (RedisKeys.queue sessionId), delKey st (RedisKeys.queue sessionId))

/-- joinRoom: SADD the session into the room's member set, then SADD the room
into the session's room set. -/
def joinRoom (sessionId : String) (room : String) (st : RedisState) : RedisState :=
  saddKey (saddKey st (RedisKeys.rooms room) sessionId) (RedisKeys.sessionRooms sessionId) room

/-- leaveRoom: SREM from both indices, same order as joinRoom. -/
def leaveRoom (sessionId : String) (room : String) (st : RedisState) : RedisState :=
  sremKey (sremKey st (RedisKeys.rooms room) sessionId) (RedisKeys.sessionRooms sessionId) room

/-- getRoomMembers: SMEMBERS of the room's member set. -/
def getRoomMembers (room : String) (st : RedisState) : List String :=
  smembersKey st (RedisKeys.rooms room)

/-- getSessionRooms: SMEMBERS of the session's room set. -/
def getSessionRooms (sessionId : String) (st : RedisState) : List String :=
  smembersKey st (RedisKeys.sessionRooms sessionId)

end RedisStateManager

/-- All enqueues of a call sequence, in order. -/
def enqueueAll (mgr : RedisStateManager) (sessionId : String) (ms : List SocketMessage)
    (st : RedisState) : RedisState :=
  ms.foldl (fun acc m => RedisStateManager.enqueueMessage mgr sessionId m acc) st

/-! ## Delivery effects (src/server/enhanced-socket.ts) -/

/-- One store side effect of a delivery operation: an RPUSH into a session's
durable queue, or a PUBLISH on a channel. -/
inductive Effect where
  | enqueue : String → SocketMessage → Effect
  | publish : String → SocketMessage → Effect
deriving DecidableEq, Repr

/-- Effects of EnhancedServerSocket.emit for a plain (uncompressed,
non-binary) payload: enqueue to the socket's own queue and publish on the
socket's channel. -/
def emitEffects (selfId event data : String) (ts : Nat) (mid : Option String)
    (ra : Bool) : List Effect :=
  [Effect.enqueue selfId ⟨event, data, ts, selfId, mid, ra⟩,
   Effect.publish (RedisKeys.channel selfId) ⟨event, data, ts, selfId, mid, ra⟩]

/-- Effects of EnhancedServerSocket.broadcastToRoom: resolve the room's
members, drop the sender, and publish the message on each remaining member's
channel. -/
def broadcastToRoomEffects (selfId room event data : String) (ts : Nat)
    (st : RedisState) : List Effect :=
  let msg : SocketMessage := ⟨event, data, ts, selfId, none, false⟩
  ((RedisStateManager.getRoomMembers room st).filter (fun m => m != selfId)).map
    (fun m => Effect.publish (RedisKeys.channel m) msg)

/-! ## Acknowledgment-callback registry (ServerSocketImpl / EnhancedServerSocket) -/

/-- External events acting on the registry: handleAck for some message id, or
the firing of the 5 s setTimeout armed for some message id. -/
inductive AckEvent where
  | ackArrive : String → String → AckEvent
  | timeoutFire : String → AckEvent
deriving DecidableEq, Repr

/-- One invocation of a registered callback: with the consumer's response, or
with the acknowledgment-timeout error. -/
inductive AckCall where
  | response : String → AckCall
  | timeoutError : AckCall
deriving DecidableEq, Repr

/-- The registry: the ids with a live callback (the keys of ackCallbacks) and
the invocations performed so far, in order, each tagged with its id. -/
structure AckState where
  pending : List String
  calls : List (String × AckCall)
deriving DecidableEq, Repr

/-- handleAck: invoke-and-delete when the id is registered, otherwise ignore.
Timeout firing: the setTimeout body checks the map, deletes, and invokes the
callback with the timeout error; when the id was already consumed it does
nothing. -/
def ackStep (s : AckState) (e : AckEvent) : AckState :=
  match e with
  | AckEvent.ackArrive mid resp =>
    if mid ∈ s.pending then
      ⟨s.pending.erase mid, s.calls ++ [(mid, AckCall.response resp)]⟩
    else s
  | AckEvent.timeoutFire mid =>
    if mid ∈ s.pending then
      ⟨s.pending.erase mid, s.calls ++ [(mid, AckCall.timeoutError)]⟩
    else s

/-- Run a sequence of events over the registry. -/
def ackRun (s : AckState) (evs : List AckEvent) : AckState := evs.foldl ackStep s

/-- Registry right after an emit that requested an acknowledgment for the
fresh id mid. -/
def emitAckState (mid : String) : AckState := ⟨[mid], []⟩

/-- Registry right after an emit without an acknowledgment callback: nothing
is registered. -/
def emitNoAckState : AckState := ⟨[], []⟩

/-- The invocations delivered to the callback registered for mid. -/
def callsFor (s : AckState) (mid : String) : List AckCall :=
  (s.calls.filter (fun c => c.1 == mid)).map (fun c => c.2)

/-- Whether an event addresses the id mid. -/
def isForMid (mid : String) : AckEvent → Bool
  | AckEvent.ackArrive m _ => m == mid
  | AckEvent.timeoutFire m => m == mid

/-- The invocation an event produces when it finds the callback registered. -/
def evKind : AckEvent → AckCall
  | AckEvent.ackArrive _ resp => AckCall.response resp
  | AckEvent.timeoutFire _ => AckCall.timeoutError

/-! ## Connection lifecycle (src/server/socket.ts, EnhancedSocketServer) -/

/-- Object-spread merge of two string-keyed records: entries of the first not
overridden by the second, then the second's entries. -/
def recordMerge (a b : List (String × String)) : List (String × String) :=
  (a.filter (fun p => b.all (fun q => q.1 != p.1))) ++ b

/-- Tail of handleConnect after the session is created and any initial
sessionData applied: run the middleware chain (modelled by its outcome);
on failure delete the just-created session and surface the error; on success
optionally compute missedMessages by draining the queue and filtering to
entries newer than the caller's watermark. -/
def handleConnectFinish (sessionId : String) (state1 : SessionState)
    (mw : Except String Unit) (lastTs : Option Nat) (st : RedisState) :
    RedisState × Except String (String × List (String × String) × List SocketMessage) :=
  match mw with
  | Except.error e => (RedisStateManager.deleteSession sessionId st, Except.error e)
  | Except.ok _ =>
    match lastTs with
    | some ts =>
      let dq := RedisStateManager.dequeueMessages sessionId st
      (dq.2, Except.ok (sessionId, state1.data, dq.1.filter (fun m => decide (ts < m.timestamp))))
    | none => (st, Except.ok (sessionId, state1.data, []))

/-- EnhancedSocketServer.handleConnect: create the session record, merge any
caller-provided initial sessionData into it (written back via updateSession),
then run the middleware chain and finish.  The delayed connect handler runs
asynchronously afterwards and does not touch the store here. -/
def handleConnect (mgr : RedisStateManager) (sessionId : String)
    (sessionData : Option (List (String × String))) (mw : Except String Unit)
    (lastTs : Option Nat) (now : Nat) (st : RedisState) :
    RedisState × Except String (String × List (String × String) × List SocketMessage) :=
  let created := RedisStateManager.createSession mgr sessionId now st
  match sessionData with
  | some d =>
    let state1 : SessionState := { created.2 with data := recordMerge created.2.data d }
    let st2 := RedisStateManager.updateSession mgr sessionId
      ⟨some state1.id, some state1.createdAt, some state1.lastActivity, some state1.data⟩
      now created.1
    handleConnectFinish sessionId state1 mw lastTs st2
  | none => handleConnectFinish sessionId created.2 mw lastTs created.1

/-- Server-side state relevant to disconnect: the keyspace, the presence
tracker's socket-to-user index, and the default namespace's socket map. -/
structure ServerState where
  redis : RedisState
  presSocketToUser : List (String × String)
  nsSockets : List String

/-- EnhancedServerSocket.leaveAll: read the session's rooms and leave each. -/
def leaveAllRooms (sessionId : String) (st : RedisState) : RedisState :=
  (RedisStateManager.getSessionRooms sessionId st).foldl
    (fun acc room => RedisStateManager.leaveRoom sessionId room acc) st

/-- PresenceManager.untrack: drop the socket from the socket-to-user index. -/
def presUntrack (sessionId : String) (pres : List (String × String)) :
    List (String × String) :=
  pres.filter (fun p => p.1 != sessionId)

/-- EnhancedSocketServer.handleDisconnect, with the registered global
disconnect handler modelled by its outcome (none = no handler registered; no
namespace-level disconnect handler is registered).  Steps, in source order:
load the session (no-op when absent); socket.cleanup() which leaves all
rooms; namespace disconnection which removes the socket from the namespace
map; the global disconnect handler, awaited with no try/catch, so a thrown
error propagates immediately; then presence untrack and session deletion. -/
def handleDisconnectE (onDisconnect : Option (Except String Unit))
    (sessionId : String) (s : ServerState) : Except String Unit × ServerState :=
  match getSessionVal s.redis (RedisKeys.session sessionId) with
  | none => (Except.ok (), s)
  | some _ =>
    let s1 : ServerState := { s with redis := leaveAllRooms sessionId s.redis }
    let s2 : ServerState := { s1 with nsSockets := s1.nsSockets.erase sessionId }
    match onDisconnect with
    | some (Except.error e) => (Except.error e, s2)
    | _ =>
      let s3 : ServerState := { s2 with presSocketToUser := presUntrack sessionId s2.presSocketToUser }
      (Except.ok (), { s3 with redis := RedisStateManager.deleteSession sessionId s3.redis })

/-! ## Client state machine (src/client/enhanced-socket.ts) -/

/-- Inbound message as seen by the client's handleMessage. -/
structure ClientMsg where
  event : String
  data : String
  messageId : Option String
  timestamp : Option Nat
deriving DecidableEq, Repr

/-- EnhancedClientSocket.handleMessage, restricted to the dedupe check and
handler dispatch: a message whose id is already in the recently-seen list is
dropped; otherwise the id is recorded and, unless the message is an
ack-response (event __ack carrying a messageId, which resolves an ack
callback instead), the payload is dispatched to the event's handlers.
Returns the new recently-seen list and the dispatched (event, data), if
any. -/
def clientHandleMessage (processedIds : List String) (m : ClientMsg) :
    List String × Option (String × String) :=
  match m.messageId with
  | some mid =>
    if mid ∈ processedIds then (processedIds, none)
    else
      let p := processedIds ++ [mid]
      if m.event = "__ack" then (p, none) else (p, some (m.event, m.data))
  | none => (processedIds, some (m.event, m.data))

/-- Fold handleMessage's dedupe-list evolution over a message sequence. -/
def runClientMessages (p : List String) (ms : List ClientMsg) : List String :=
  ms.foldl (fun acc m => (clientHandleMessage acc m).1) p

/-- The periodic dedupe trim (startDedupeCleanup): when the recently-seen
list exceeds 10000 entries, keep only the most recent 1000. -/
def dedupeCleanup (processedIds : List String) : List String :=
  if 10000 < processedIds.length then processedIds.drop (processedIds.length - 1000)
  else processedIds

/-- Reconnection settings derived in the EnhancedClientSocket constructor. -/
structure ReconnectConfig where
  reconnectEnabled : Bool
  maxReconnectAttempts : Nat
  reconnectDelay : Rat
  maxReconnectDelay : Rat
deriving DecidableEq, Repr

/-- Constructor options relevant to reconnection. -/
structure ReconnectOptions where
  reconnect : Option Bool
  maxReconnectAttempts : Option Nat
  reconnectDelay : Option Rat
  maxReconnectDelay : Option Rat
deriving DecidableEq, Repr

/-- The options record with every field omitted. -/
def defaultReconnectOptions : ReconnectOptions := ⟨none, none, none, none⟩

/-- JavaScript logical-or defaulting for numeric options (0 also falls back
to the default). -/
def jsOrNat (v : Option Nat) (d : Nat) : Nat :=
  match v with
  | none => d
  | some n => if n = 0 then d else n

/-- JavaScript logical-or defaulting for rational-valued options. -/
def jsOrRat (v : Option Rat) (d : Rat) : Rat :=
  match v with
  | none => d
  | some q => if q = 0 then d else q

/-- The constructor: reconnect enabled unless literally false; attempt cap
defaults to 10, base delay to 1000 ms, delay cap to 30000 ms. -/
def configOfOptions (o : ReconnectOptions) : ReconnectConfig :=
  { reconnectEnabled := o.reconnect.getD true
    maxReconnectAttempts := jsOrNat o.maxReconnectAttempts 10
    reconnectDelay := jsOrRat o.reconnectDelay 1000
    maxReconnectDelay := jsOrRat o.maxReconnectDelay 30000 }

/-- Outcome of one handleReconnect call. -/
inductive ReconnectAction where
  | noRetry : ReconnectAction
  | stopFailed : ReconnectAction
  | schedule : Nat → Rat → ReconnectAction
deriving DecidableEq, Repr

/-- EnhancedClientSocket.handleReconnect: return silently when reconnection
is disabled; when the attempt counter has reached the cap, emit
reconnect_failed and schedule nothing; otherwise increment the counter and
schedule a retry after min(base * 2^(attempt-1) + jitter, maxDelay), where
jitter stands for the Math.random()*1000 draw. -/
def handleReconnect (c : ReconnectConfig) (attemptsBefore : Nat) (jitter : Rat) :
    ReconnectAction :=
  if !c.reconnectEnabled then ReconnectAction.noRetry
  else if c.maxReconnectAttempts ≤ attemptsBefore then ReconnectAction.stopFailed
  else
    let attempt := attemptsBefore + 1
    ReconnectAction.schedule attempt
      (min (c.reconnectDelay * 2 ^ (attempt - 1) + jitter) c.maxReconnectDelay)

/-! ## Concrete states used in counterexamples and evaluations -/

/-- Keyspace with one live session s1 that joined room lobby. -/
def c1Redis : RedisState := fun k =>
  if k = RedisKeys.session "s1" then some ⟨RVal.rsess ⟨"s1", 0, 0, []⟩, some 3600⟩
  else if k = RedisKeys.rooms "lobby" then some ⟨RVal.rset ["s1"], none⟩
  else if k = RedisKeys.sessionRooms "s1" then some ⟨RVal.rset ["lobby"], none⟩
  else none

/-- Server state for s1: presence tracked under user u1, socket registered in
the default namespace. -/
def c1Server : ServerState := ⟨c1Redis, [("s1", "u1")], ["s1"]⟩

/-- Keyspace where room r has the two members a and b. -/
def c2State : RedisState := fun k =>
  if k = RedisKeys.rooms "r" then some ⟨RVal.rset ["a", "b"], none⟩ else none

/-- The message broadcastToRoom builds for sender a, event ev, payload d at
time 5. -/
def c2Msg : SocketMessage := ⟨"ev", "d", 5, "a", none, false⟩

/-- Keyspace where room state has the single member b.  Note the key clash:
the members key of room state and the session-state key of session room are
the same string. -/
def c10State : RedisState := fun k =>
  if k = "ss:room:state" then some ⟨RVal.rset ["b"], none⟩ else none

/-! ## Basic keyspace lemmas -/

theorem setKey_self (st : RedisState) (k : String) (e : Option REntry) :
    setKey st k e k = e := by
  simp [setKey]

theorem setKey_ne (st : RedisState) (k : String) (e : Option REntry) (k2 : String)
    (h : k2 ≠ k) : setKey st k e k2 = st k2 := by
  simp [setKey, h]

theorem setKey_same (st : RedisState) (k : String) (e : Option REntry)
    (h : st k = e) : setKey st k e = st := by
  funext k2
  by_cases hk : k2 = k
  · subst hk; simp [setKey, h]
  · simp [setKey, hk]

/-! ## Key-string disambiguation lemmas -/

theorem append_ne_of_suffix_ne (x y u v : String)
    (hl : u.data.length = v.data.length) (hne : u ≠ v) : x ++ u ≠ y ++ v := by
  intro h
  apply hne
  have hd : x.data ++ u.data = y.data ++ v.data := by
    rw [← String.data_append, ← String.data_append, h]
  exact String.ext (List.append_inj' hd hl).2

theorem session_ne_queue (a b : String) : RedisKeys.session a ≠ RedisKeys.queue b := by
  unfold RedisKeys.session RedisKeys.queue
  exact append_ne_of_suffix_ne _ _ _ _ (by decide) (by decide)

theorem session_ne_sessionRooms (a b : String) :
    RedisKeys.session a ≠ RedisKeys.sessionRooms b := by
  unfold RedisKeys.session RedisKeys.sessionRooms
  exact append_ne_of_suffix_ne _ _ _ _ (by decide) (by decide)

theorem channel_inj (a b : String) (h : RedisKeys.channel a = RedisKeys.channel b) :
    a = b := by
  unfold RedisKeys.channel at h
  have hd : ((RedisKeys.keyPrefix ++ ":channel:").data) ++ a.data
      = ((RedisKeys.keyPrefix ++ ":channel:").data) ++ b.data := by
    rw [← String.data_append, ← String.data_append, h]
  exact String.ext (List.append_cancel_left hd)

/-! ## Frame lemmas for the state-manager operations -/

theorem updateSession_lookup_ne (mgr : RedisStateManager) (sid : String)
    (u : SessionUpdates) (now : Nat) (st : RedisState) (k : String)
    (h : k ≠ RedisKeys.session sid) :
    RedisStateManager.updateSession mgr sid u now st k = st k := by
  unfold RedisStateManager.updateSession
  cases RedisStateManager.getSession sid st with
  | none => rfl
  | some cur => exact setKey_ne _ _ _ _ h

theorem createSession_lookup_ne (mgr : RedisStateManager) (sid : String)
    (now : Nat) (st : RedisState) (k : String) (h : k ≠ RedisKeys.session sid) :
    (RedisStateManager.createSession mgr sid now st).1 k = st k := by
  unfold RedisStateManager.createSession setexSession
  exact setKey_ne _ _ _ _ h

/-- C10 counterexample input: the key namespace collides, so deleting the
session named room erases the member set of the room named state: both live
at the literal key ss:room:state. -/
theorem c10_delete_session_collision_cex :
    RedisStateManager.getRoomMembers "state" (RedisStateManager.deleteSession "room" c10State)
      ≠ RedisStateManager.getRoomMembers "state" c10State := by
  decide

/-- C10 (amended): the basic deleteSession removes exactly the session-state
key: the session record becomes absent, every message-queue key and every
session-to-rooms key is untouched (those key families never collide with a
session-state key), and a room's member key is untouched whenever it is a
different key string than the deleted session-state key — which can fail,
since e.g. the rooms key of room state equals the session key of session
room. -/
theorem c10_delete_session_frame (sid s2 r : String) (st : RedisState)
    (h : RedisKeys.rooms r ≠ RedisKeys.session sid) :
    RedisStateManager.getSession sid (RedisStateManager.deleteSession sid st) = none
    ∧ (RedisStateManager.deleteSession sid st) (RedisKeys.queue s2) = st (RedisKeys.queue s2)
    ∧ (RedisStateManager.deleteSession sid st) (RedisKeys.sessionRooms s2)
        = st (RedisKeys.sessionRooms s2)
    ∧ (RedisStateManager.deleteSession sid st) (RedisKeys.rooms r) = st (RedisKeys.rooms r) := by
  unfold RedisStateManager.deleteSession delKey
  refine ⟨?_, ?_, ?_, ?_⟩
  · unfold RedisStateManager.getSession getSessionVal
    rw [setKey_self]
  · exact setKey_ne _ _ _ _ (Ne.symm (session_ne_queue sid s2))
  · exact setKey_ne _ _ _ _ (Ne.symm (session_ne_sessionRooms sid s2))
  · exact setKey_ne _ _ _ _ h

/-- C10 witness: the amended frame property evaluated on the concrete
keyspace c1Redis for session a, observing queue key of b and room lobby. -/
theorem c10_delete_session_frame_witness :
    (RedisKeys.rooms "lobby" ≠ RedisKeys.session "a")
    ∧ (RedisStateManager.getSession "a" (RedisStateManager.deleteSession "a" c1Redis) = none
       ∧ (RedisStateManager.deleteSession "a" c1Redis) (RedisKeys.queue "b")
           = c1Redis (RedisKeys.queue "b")
       ∧ (RedisStateManager.deleteSession "a" c1Redis) (RedisKeys.sessionRooms "b")
           = c1Redis (RedisKeys.sessionRooms "b")
       ∧ (RedisStateManager.deleteSession "a" c1Redis) (RedisKeys.rooms "lobby")
           = c1Redis (RedisKeys.rooms "lobby")) :=
  ⟨by decide, c10_delete_session_frame "a" "b" "lobby" c1Redis (by decide)⟩

/-! ## Queue lemmas -/

theorem lrange_enqueue (mgr : RedisStateManager) (sid : String) (m : SocketMessage)
    (st : RedisState) (h : isListLike st (RedisKeys.queue sid) = true) :
    lrangeAll (RedisStateManager.enqueueMessage mgr sid m st) (RedisKeys.queue sid)
      = lrangeAll st (RedisKeys.queue sid) ++ [m]
    ∧ isListLike (RedisStateManager.enqueueMessage mgr sid m st) (RedisKeys.queue sid) = true := by
  unfold RedisStateManager.enqueueMessage
  cases hq : st (RedisKeys.queue sid) with
  | none =>
    simp [rpushMsg, hq, expireKey, setKey, lrangeAll, isListLike]
  | some e =>
    cases hv : e.val with
    | rlist l =>
      simp [rpushMsg, hq, hv, expireKey, setKey, lrangeAll, isListLike]
    | rsess s =>
      exfalso
      simp [isListLike, hq, hv] at h
    | rset l =>
      exfalso
      simp [isListLike, hq, hv] at h

theorem lrange_enqueueAll (mgr : RedisStateManager) (sid : String) :
    ∀ (ms : List SocketMessage) (st : RedisState),
    isListLike st (RedisKeys.queue sid) = true →
    lrangeAll (enqueueAll mgr sid ms st) (RedisKeys.queue sid)
      = lrangeAll st (RedisKeys.queue sid) ++ ms
    ∧ isListLike (enqueueAll mgr sid ms st) (RedisKeys.queue sid) = true := by
  intro ms
  induction ms with
  | nil =>
    intro st h
    exact ⟨by simp [enqueueAll], by simpa [enqueueAll] using h⟩
  | cons m rest ih =>
    intro st h
    have h1 := lrange_enqueue mgr sid m st h
    have h2 := ih (RedisStateManager.enqueueMessage mgr sid m st) h1.2
    have hstep : enqueueAll mgr sid (m :: rest) st
        = enqueueAll mgr sid rest (RedisStateManager.enqueueMessage mgr sid m st) := rfl
    refine ⟨?_, ?_⟩
    · rw [hstep, h2.1, h1.1]
      simp
    · rw [hstep]
      exact h2.2

/-- C3: starting from a session with nothing queued, a sequence of enqueues
followed by one drain returns exactly the enqueued messages in insertion
order; an immediately following drain returns the empty sequence; and
draining with nothing queued returns the empty sequence (never an error). -/
theorem c3_queue_drain_fifo (mgr : RedisStateManager) (sid : String)
    (ms : List SocketMessage) (st : RedisState)
    (hempty : st (RedisKeys.queue sid) = none) :
    (RedisStateManager.dequeueMessages sid (enqueueAll mgr sid ms st)).1 = ms
    ∧ (RedisStateManager.dequeueMessages sid
        ((RedisStateManager.dequeueMessages sid (enqueueAll mgr sid ms st)).2)).1 = []
    ∧ (RedisStateManager.dequeueMessages sid st).1 = [] := by
  have hll : isListLike st (RedisKeys.queue sid) = true := by
    simp [isListLike, hempty]
  have hmain := lrange_enqueueAll mgr sid ms st hll
  refine ⟨?_, ?_, ?_⟩
  · unfold RedisStateManager.dequeueMessages
    rw [hmain.1]
    simp [lrangeAll, hempty]
  · unfold RedisStateManager.dequeueMessages delKey
    simp [lrangeAll, setKey_self]
  · unfold RedisStateManager.dequeueMessages
    simp [lrangeAll, hempty]

/-- C3 witness: two concrete messages enqueued on the empty keyspace drain in
order, a second drain is empty, and draining the untouched session is
empty. -/
theorem c3_queue_drain_fifo_witness :
    (emptyRedis (RedisKeys.queue "s") = none)
    ∧ ((RedisStateManager.dequeueMessages "s"
          (enqueueAll ⟨3600⟩ "s" [⟨"e1", "d1", 1, "s", none, false⟩,
            ⟨"e2", "d2", 2, "s", none, false⟩] emptyRedis)).1
        = [⟨"e1", "d1", 1, "s", none, false⟩, ⟨"e2", "d2", 2, "s", none, false⟩]
       ∧ (RedisStateManager.dequeueMessages "s"
            ((RedisStateManager.dequeueMessages "s"
              (enqueueAll ⟨3600⟩ "s" [⟨"e1", "d1", 1, "s", none, false⟩,
                ⟨"e2", "d2", 2, "s", none, false⟩] emptyRedis)).2)).1 = []
       ∧ (RedisStateManager.dequeueMessages "s" emptyRedis).1 = []) :=
  ⟨rfl, c3_queue_drain_fifo ⟨3600⟩ "s"
    [⟨"e1", "d1", 1, "s", none, false⟩, ⟨"e2", "d2", 2, "s", none, false⟩]
    emptyRedis rfl⟩

/-- C6: updateSession on an absent record is silently dropped (the keyspace
is unchanged, no resurrection), and updateSession on an existing record
rewrites exactly the session key with the spread-merged record whose
lastActivity is the current time, under the full configured TTL. -/
theorem c6_update_session_merge_ttl (mgr : RedisStateManager) (sid : String)
    (u : SessionUpdates) (now : Nat) (st : RedisState) :
    (st (RedisKeys.session sid) = none → RedisStateManager.updateSession mgr sid u now st = st)
    ∧ (∀ cur t, st (RedisKeys.session sid) = some ⟨RVal.rsess cur, t⟩ →
        RedisStateManager.updateSession mgr sid u now st
          = setKey st (RedisKeys.session sid)
              (some ⟨RVal.rsess (RedisStateManager.applyUpdates cur u now), some mgr.ttl⟩)
        ∧ (RedisStateManager.applyUpdates cur u now).lastActivity = now) := by
  constructor
  · intro h
    unfold RedisStateManager.updateSession RedisStateManager.getSession getSessionVal
    rw [h]
  · intro cur t h
    constructor
    · unfold RedisStateManager.updateSession RedisStateManager.getSession getSessionVal
      rw [h]
      rfl
    · rfl

/-- C6 witness: dropped update on a session absent from c1Redis, and merged
rewrite of the existing record of s1. -/
theorem c6_update_session_merge_ttl_witness :
    (c1Redis (RedisKeys.session "zz") = none
     ∧ RedisStateManager.updateSession ⟨3600⟩ "zz" ⟨none, none, none, none⟩ 7 c1Redis = c1Redis)
    ∧ (c1Redis (RedisKeys.session "s1") = some ⟨RVal.rsess ⟨"s1", 0, 0, []⟩, some 3600⟩
       ∧ (RedisStateManager.updateSession ⟨3600⟩ "s1" ⟨none, none, none, none⟩ 7 c1Redis
            = setKey c1Redis (RedisKeys.session "s1")
                (some ⟨RVal.rsess (RedisStateManager.applyUpdates ⟨"s1", 0, 0, []⟩
                  ⟨none, none, none, none⟩ 7), some 3600⟩)
          ∧ (RedisStateManager.applyUpdates ⟨"s1", 0, 0, []⟩
              ⟨none, none, none, none⟩ 7).lastActivity = 7)) :=
  ⟨⟨by decide, (c6_update_session_merge_ttl ⟨3600⟩ "zz" ⟨none, none, none, none⟩ 7 c1Redis).1
      (by decide)⟩,
   ⟨by decide, (c6_update_session_merge_ttl ⟨3600⟩ "s1" ⟨none, none, none, none⟩ 7 c1Redis).2
      ⟨"s1", 0, 0, []⟩ (some 3600) (by decide)⟩⟩

/-- C7: when the middleware chain fails during handleConnect, the error is
surfaced, the just-created session record is gone from the resulting
keyspace, and every other key reads as in the pre-connect keyspace — the
connect left no trace beyond the deleted record. -/
theorem c7_connect_rollback (mgr : RedisStateManager) (sid : String)
    (sd : Option (List (String × String))) (lastTs : Option Nat) (now : Nat)
    (st : RedisState) (e : String) :
    (handleConnect mgr sid sd (Except.error e) lastTs now st).2 = Except.error e
    ∧ (handleConnect mgr sid sd (Except.error e) lastTs now st).1 (RedisKeys.session sid) = none
    ∧ ∀ k, k ≠ RedisKeys.session sid →
        (handleConnect mgr sid sd (Except.error e) lastTs now st).1 k = st k := by
  cases sd with
  | none =>
    refine ⟨rfl, ?_, ?_⟩
    · show (RedisStateManager.deleteSession sid _) (RedisKeys.session sid) = none
      unfold RedisStateManager.deleteSession delKey
      rw [setKey_self]
    · intro k hk
      show (RedisStateManager.deleteSession sid _) k = st k
      unfold RedisStateManager.deleteSession delKey
      rw [setKey_ne _ _ _ _ hk]
      exact createSession_lookup_ne mgr sid now st k hk
  | some d =>
    refine ⟨rfl, ?_, ?_⟩
    · show (RedisStateManager.deleteSession sid _) (RedisKeys.session sid) = none
      unfold RedisStateManager.deleteSession delKey
      rw [setKey_self]
    · intro k hk
      show (RedisStateManager.deleteSession sid _) k = st k
      unfold RedisStateManager.deleteSession delKey
      rw [setKey_ne _ _ _ _ hk, updateSession_lookup_ne _ _ _ _ _ _ hk]
      exact createSession_lookup_ne mgr sid now st k hk

/-- C7 witness: a rejected connect on the empty keyspace leaves no session
record and no other key, observed at the queue key of the same session. -/
theorem c7_connect_rollback_witness :
    ((handleConnect ⟨3600⟩ "n" (some [("x", "y")]) (Except.error "denied") none 3 emptyRedis).2
        = Except.error "denied")
    ∧ ((handleConnect ⟨3600⟩ "n" (some [("x", "y")]) (Except.error "denied") none 3
          emptyRedis).1 (RedisKeys.session "n") = none)
    ∧ (RedisKeys.queue "n" ≠ RedisKeys.session "n")
    ∧ ((handleConnect ⟨3600⟩ "n" (some [("x", "y")]) (Except.error "denied") none 3
          emptyRedis).1 (RedisKeys.queue "n") = emptyRedis (RedisKeys.queue "n")) :=
  ⟨(c7_connect_rollback ⟨3600⟩ "n" (some [("x", "y")]) none 3 emptyRedis "denied").1,
   (c7_connect_rollback ⟨3600⟩ "n" (some [("x", "y")]) none 3 emptyRedis "denied").2.1,
   by decide,
   (c7_connect_rollback ⟨3600⟩ "n" (some [("x", "y")]) none 3 emptyRedis "denied").2.2
     (RedisKeys.queue "n") (by decide)⟩

/-! ## Set-key lemmas -/

theorem smembers_congr (st st2 : RedisState) (k : String) (h : st k = st2 k) :
    smembersKey st k = smembersKey st2 k := by
  unfold smembersKey
  rw [h]

theorem sadd_lookup_ne (st : RedisState) (k x k2 : String) (h : k2 ≠ k) :
    saddKey st k x k2 = st k2 := by
  unfold saddKey
  cases hq : st k with
  | none => exact setKey_ne _ _ _ _ h
  | some e =>
    obtain ⟨v, t⟩ := e
    cases v with
    | rset l =>
      by_cases hx : x ∈ l
      · simp [hx]
      · simp [hx, setKey_ne _ _ _ _ h]
    | rsess s => rfl
    | rlist l => rfl

theorem srem_lookup_ne (st : RedisState) (k x k2 : String) (h : k2 ≠ k) :
    sremKey st k x k2 = st k2 := by
  unfold sremKey
  cases hq : st k with
  | none => rfl
  | some e =>
    obtain ⟨v, t⟩ := e
    cases v with
    | rset l => exact setKey_ne _ _ _ _ h
    | rsess s => rfl
    | rlist l => rfl

theorem smembers_sadd_self (st : RedisState) (k x : String)
    (h : isWfSet st k = true) : x ∈ smembersKey (saddKey st k x) k := by
  unfold saddKey
  cases hq : st k with
  | none => simp [smembersKey, setKey_self]
  | some e =>
    obtain ⟨v, t⟩ := e
    cases v with
    | rset l =>
      by_cases hx : x ∈ l
      · simp [hx, smembersKey, hq]
      · simp [hx, smembersKey, setKey_self]
    | rsess s => exfalso; simp [isWfSet, hq] at h
    | rlist l => exfalso; simp [isWfSet, hq] at h

theorem smembers_sadd_mem_any (st : RedisState) (k x k2 y : String)
    (hy : y ∈ smembersKey st k2) : y ∈ smembersKey (saddKey st k x) k2 := by
  by_cases hk : k2 = k
  · subst hk
    unfold saddKey
    cases hq : st k2 with
    | none => exfalso; simp [smembersKey, hq] at hy
    | some e =>
      obtain ⟨v, t⟩ := e
      cases v with
      | rset l =>
        have hyl : y ∈ l := by simpa [smembersKey, hq] using hy
        by_cases hx : x ∈ l
        · simpa [hx, smembersKey, hq] using hyl
        · simp [hx, smembersKey, setKey_self]
          exact Or.inl hyl
      | rsess s => exfalso; simp [smembersKey, hq] at hy
      | rlist l => exfalso; simp [smembersKey, hq] at hy
  · rw [smembers_congr _ st _ (sadd_lookup_ne st k x k2 hk)]
    exact hy

theorem sadd_wf (st : RedisState) (k x k2 : String)
    (h : isWfSet st k2 = true) : isWfSet (saddKey st k x) k2 = true := by
  by_cases hk : k2 = k
  · subst hk
    unfold saddKey
    cases hq : st k2 with
    | none => simp [isWfSet, setKey_self]
    | some e =>
      obtain ⟨v, t⟩ := e
      cases v with
      | rset l =>
        have hnd : l.Nodup := by simpa [isWfSet, hq] using h
        by_cases hx : x ∈ l
        · simpa [hx, isWfSet, hq] using hnd
        · simp [hx, isWfSet, setKey_self]
          exact hnd.append (List.nodup_singleton x)
            (fun a ha hax => by simp at hax; subst hax; exact hx ha)
      | rsess s => exfalso; simp [isWfSet, hq] at h
      | rlist l => exfalso; simp [isWfSet, hq] at h
  · unfold isWfSet at h ⊢
    rw [sadd_lookup_ne st k x k2 hk]
    exact h

theorem srem_wf (st : RedisState) (k x k2 : String)
    (h : isWfSet st k2 = true) : isWfSet (sremKey st k x) k2 = true := by
  by_cases hk : k2 = k
  · subst hk
    unfold sremKey
    cases hq : st k2 with
    | none => simp [isWfSet, hq]
    | some e =>
      obtain ⟨v, t⟩ := e
      cases v with
      | rset l =>
        have hnd : l.Nodup := by simpa [isWfSet, hq] using h
        simp [isWfSet, setKey_self]
        exact hnd.erase x
      | rsess s => exfalso; simp [isWfSet, hq] at h
      | rlist l => exfalso; simp [isWfSet, hq] at h
  · unfold isWfSet at h ⊢
    rw [srem_lookup_ne st k x k2 hk]
    exact h

theorem smembers_srem_self (st : RedisState) (k x : String)
    (h : isWfSet st k = true) : x ∉ smembersKey (sremKey st k x) k := by
  unfold sremKey
  cases hq : st k with
  | none => simp [smembersKey, hq]
  | some e =>
    obtain ⟨v, t⟩ := e
    cases v with
    | rset l =>
      have hnd : l.Nodup := by simpa [isWfSet, hq] using h
      simp [smembersKey, setKey_self]
      exact hnd.not_mem_erase
    | rsess s => exfalso; simp [isWfSet, hq] at h
    | rlist l => exfalso; simp [isWfSet, hq] at h

theorem smembers_srem_sub (st : RedisState) (k x k2 y : String)
    (hy : y ∈ smembersKey (sremKey st k x) k2) : y ∈ smembersKey st k2 := by
  by_cases hk : k2 = k
  · subst hk
    unfold sremKey at hy
    cases hq : st k2 with
    | none => rw [hq] at hy; exact hy
    | some e =>
      obtain ⟨v, t⟩ := e
      cases v with
      | rset l =>
        rw [hq] at hy
        have hyl : y ∈ l.erase x := by simpa [smembersKey, setKey_self] using hy
        simp [smembersKey, hq]
        exact List.mem_of_mem_erase hyl
      | rsess s => rw [hq] at hy; exact hy
      | rlist l => rw [hq] at hy; exact hy
  · rw [smembers_congr _ st _ (srem_lookup_ne st k x k2 hk)] at hy
    exact hy

theorem sadd_of_mem (st : RedisState) (k x : String)
    (hx : x ∈ smembersKey st k) : saddKey st k x = st := by
  unfold saddKey
  cases hq : st k with
  | none => exfalso; simp [smembersKey, hq] at hx
  | some e =>
    obtain ⟨v, t⟩ := e
    cases v with
    | rset l =>
      have hxl : x ∈ l := by simpa [smembersKey, hq] using hx
      simp [hxl]
    | rsess s => exfalso; simp [smembersKey, hq] at hx
    | rlist l => exfalso; simp [smembersKey, hq] at hx

theorem srem_of_not_mem (st : RedisState) (k x : String)
    (hx : x ∉ smembersKey st k) : sremKey st k x = st := by
  unfold sremKey
  cases hq : st k with
  | none => rfl
  | some e =>
    obtain ⟨v, t⟩ := e
    cases v with
    | rset l =>
      have hxl : x ∉ l := by simpa [smembersKey, hq] using hx
      show setKey st k (some ⟨RVal.rset (l.erase x), t⟩) = st
      rw [List.erase_of_not_mem hxl]
      exact setKey_same st k _ (by rw [hq])
    | rsess s => rfl
    | rlist l => rfl

/-- C4: over any keyspace whose two index keys are well-formed set keys,
joinRoom makes the room visible in getSessionRooms and the session visible
in getRoomMembers; a subsequent leaveRoom removes both; and repeating either
call leaves the keyspace unchanged (idempotence). -/
theorem c4_room_index_symmetry (st : RedisState) (s r : String)
    (h1 : isWfSet st (RedisKeys.rooms r) = true)
    (h2 : isWfSet st (RedisKeys.sessionRooms s) = true) :
    (r ∈ RedisStateManager.getSessionRooms s (RedisStateManager.joinRoom s r st)
     ∧ s ∈ RedisStateManager.getRoomMembers r (RedisStateManager.joinRoom s r st))
    ∧ (r ∉ RedisStateManager.getSessionRooms s
          (RedisStateManager.leaveRoom s r (RedisStateManager.joinRoom s r st))
       ∧ s ∉ RedisStateManager.getRoomMembers r
          (RedisStateManager.leaveRoom s r (RedisStateManager.joinRoom s r st)))
    ∧ RedisStateManager.joinRoom s r (RedisStateManager.joinRoom s r st)
        = RedisStateManager.joinRoom s r st
    ∧ RedisStateManager.leaveRoom s r (RedisStateManager.leaveRoom s r st)
        = RedisStateManager.leaveRoom s r st := by
  have hjoin : RedisStateManager.joinRoom s r st
      = saddKey (saddKey st (RedisKeys.rooms r) s) (RedisKeys.sessionRooms s) r := rfl
  have ha : r ∈ RedisStateManager.getSessionRooms s (RedisStateManager.joinRoom s r st) := by
    rw [hjoin]
    exact smembers_sadd_self _ _ _ (sadd_wf st (RedisKeys.rooms r) s _ h2)
  have hb : s ∈ RedisStateManager.getRoomMembers r (RedisStateManager.joinRoom s r st) := by
    rw [hjoin]
    exact smembers_sadd_mem_any _ _ _ _ _ (smembers_sadd_self st (RedisKeys.rooms r) s h1)
  have hwR1 : isWfSet (RedisStateManager.joinRoom s r st) (RedisKeys.rooms r) = true := by
    rw [hjoin]
    exact sadd_wf _ _ _ _ (sadd_wf st (RedisKeys.rooms r) s _ h1)
  have hwS1 : isWfSet (RedisStateManager.joinRoom s r st) (RedisKeys.sessionRooms s) = true := by
    rw [hjoin]
    exact sadd_wf _ _ _ _ (sadd_wf st (RedisKeys.rooms r) s _ h2)
  refine ⟨⟨ha, hb⟩, ⟨?_, ?_⟩, ?_, ?_⟩
  · intro hmem
    have hsub := smembers_srem_sub
      (sremKey (RedisStateManager.joinRoom s r st) (RedisKeys.rooms r) s)
      (RedisKeys.sessionRooms s) r (RedisKeys.sessionRooms s) r
    have hwf : isWfSet (sremKey (RedisStateManager.joinRoom s r st) (RedisKeys.rooms r) s)
        (RedisKeys.sessionRooms s) = true := srem_wf _ _ _ _ hwS1
    exact absurd hmem (by
      intro hx
      exact smembers_srem_self _ _ _ hwf hx)
  · intro hmem
    have hx : s ∈ smembersKey
        (sremKey (RedisStateManager.joinRoom s r st) (RedisKeys.rooms r) s)
        (RedisKeys.rooms r) :=
      smembers_srem_sub _ (RedisKeys.sessionRooms s) r (RedisKeys.rooms r) s hmem
    exact smembers_srem_self _ _ _ hwR1 hx
  · show saddKey (saddKey (RedisStateManager.joinRoom s r st) (RedisKeys.rooms r) s)
        (RedisKeys.sessionRooms s) r = RedisStateManager.joinRoom s r st
    rw [sadd_of_mem _ _ _ hb]
    exact sadd_of_mem _ _ _ ha
  · have hnR : s ∉ smembersKey
        (RedisStateManager.leaveRoom s r st) (RedisKeys.rooms r) := by
      intro hx
      exact smembers_srem_self _ _ _ h1
        (smembers_srem_sub _ (RedisKeys.sessionRooms s) r (RedisKeys.rooms r) s hx)
    have hnS : r ∉ smembersKey
        (RedisStateManager.leaveRoom s r st) (RedisKeys.sessionRooms s) := by
      have hwf : isWfSet (sremKey st (RedisKeys.rooms r) s) (RedisKeys.sessionRooms s) = true :=
        srem_wf _ _ _ _ h2
      exact smembers_srem_self _ _ _ hwf
    show sremKey (sremKey (RedisStateManager.leaveRoom s r st) (RedisKeys.rooms r) s)
        (RedisKeys.sessionRooms s) r = RedisStateManager.leaveRoom s r st
    rw [srem_of_not_mem _ _ _ hnR]
    exact srem_of_not_mem _ _ _ hnS

/-- C4 witness: both index keys of the empty keyspace are well-formed set
keys, and join, leave, and their repetitions behave as claimed for session a
and room lobby. -/
theorem c4_room_index_symmetry_witness :
    (isWfSet emptyRedis (RedisKeys.rooms "lobby") = true
     ∧ isWfSet emptyRedis (RedisKeys.sessionRooms "a") = true)
    ∧ ((("lobby" ∈ RedisStateManager.getSessionRooms "a"
            (RedisStateManager.joinRoom "a" "lobby" emptyRedis)
         ∧ "a" ∈ RedisStateManager.getRoomMembers "lobby"
            (RedisStateManager.joinRoom "a" "lobby" emptyRedis))
        ∧ ("lobby" ∉ RedisStateManager.getSessionRooms "a"
            (RedisStateManager.leaveRoom "a" "lobby"
              (RedisStateManager.joinRoom "a" "lobby" emptyRedis))
           ∧ "a" ∉ RedisStateManager.getRoomMembers "lobby"
            (RedisStateManager.leaveRoom "a" "lobby"
              (RedisStateManager.joinRoom "a" "lobby" emptyRedis)))
        ∧ RedisStateManager.joinRoom "a" "lobby"
            (RedisStateManager.joinRoom "a" "lobby" emptyRedis)
            = RedisStateManager.joinRoom "a" "lobby" emptyRedis
        ∧ RedisStateManager.leaveRoom "a" "lobby"
            (RedisStateManager.leaveRoom "a" "lobby" emptyRedis)
            = RedisStateManager.leaveRoom "a" "lobby" emptyRedis)) :=
  ⟨⟨by decide, by decide⟩,
   c4_room_index_symmetry emptyRedis "a" "lobby" (by decide) (by decide)⟩

/-! ## Broadcast fan-out lemmas -/

theorem length_filter_ne_of_nodup (l : List String) (a : String)
    (h : l.Nodup) (ha : a ∈ l) :
    (l.filter (fun m => m != a)).length = l.length - 1 := by
  induction l with
  | nil => simp at ha
  | cons b t ih =>
    rcases List.mem_cons.mp ha with hba | hat
    · subst hba
      have hbt : a ∉ t := (List.nodup_cons.mp h).1
      simp [List.filter_cons]
      intro x hx hxa
      exact hbt (hxa ▸ hx)
    · have hnt : t.Nodup := (List.nodup_cons.mp h).2
      by_cases hba : b = a
      · exact absurd (hba ▸ hat) (List.nodup_cons.mp h).1
      · have hlen := ih hnt hat
        have hpos : 0 < t.length := List.length_pos.mpr (List.ne_nil_of_mem hat)
        simp [List.filter_cons, hba, hlen]
        omega

/-- C2 counterexample input: in the keyspace where room r has members a and
b, broadcastToRoom from sender a does not perform the enqueue half of the
enqueue-plus-publish pair for member b — the fan-out consists of channel
publishes only. -/
theorem c2_broadcast_no_enqueue_cex :
    ¬ (∀ m ∈ RedisStateManager.getRoomMembers "r" c2State, m ≠ "a" →
        Effect.enqueue m c2Msg ∈ broadcastToRoomEffects "a" "r" "ev" "d" 5 c2State
        ∧ Effect.publish (RedisKeys.channel m) c2Msg
            ∈ broadcastToRoomEffects "a" "r" "ev" "d" 5 c2State) := by
  decide

/-- C2 (amended): broadcastToRoom resolves the room's membership and, for
each member other than the sender, performs one channel publish (no durable
enqueue occurs); for a duplicate-free member set containing the sender,
exactly N-1 publishes are performed and none addresses the sender's
channel. -/
theorem c2_broadcast_publish_only (st : RedisState) (selfId room event data : String)
    (ts : Nat) (hnd : (RedisStateManager.getRoomMembers room st).Nodup)
    (hself : selfId ∈ RedisStateManager.getRoomMembers room st) :
    (broadcastToRoomEffects selfId room event data ts st).length
        = (RedisStateManager.getRoomMembers room st).length - 1
    ∧ (∀ m, m ∈ RedisStateManager.getRoomMembers room st → m ≠ selfId →
        Effect.publish (RedisKeys.channel m) ⟨event, data, ts, selfId, none, false⟩
          ∈ broadcastToRoomEffects selfId room event data ts st)
    ∧ (∀ m2, Effect.publish (RedisKeys.channel selfId) m2
          ∉ broadcastToRoomEffects selfId room event data ts st)
    ∧ (∀ s2 m2, Effect.enqueue s2 m2 ∉ broadcastToRoomEffects selfId room event data ts st) := by
  refine ⟨?_, ?_, ?_, ?_⟩
  · unfold broadcastToRoomEffects
    rw [List.length_map]
    exact length_filter_ne_of_nodup _ _ hnd hself
  · intro m hm hne
    unfold broadcastToRoomEffects
    exact List.mem_map.mpr ⟨m, List.mem_filter.mpr ⟨hm, by simpa using hne⟩, rfl⟩
  · intro m2 hmem
    unfold broadcastToRoomEffects at hmem
    obtain ⟨m, hmf, heq⟩ := List.mem_map.mp hmem
    have hchan : RedisKeys.channel m = RedisKeys.channel selfId := by
      injection heq
    have hms : m = selfId := channel_inj m selfId hchan
    have : (m != selfId) = true := (List.mem_filter.mp hmf).2
    simp [hms] at this
  · intro s2 m2 hmem
    unfold broadcastToRoomEffects at hmem
    obtain ⟨m, hmf, heq⟩ := List.mem_map.mp hmem
    exact Effect.noConfusion heq

/-- C2 witness: the amended fan-out property evaluated on the two-member
room r with sender a. -/
theorem c2_broadcast_publish_only_witness :
    ((RedisStateManager.getRoomMembers "r" c2State).Nodup
     ∧ "a" ∈ RedisStateManager.getRoomMembers "r" c2State)
    ∧ ((broadcastToRoomEffects "a" "r" "ev" "d" 5 c2State).length
          = (RedisStateManager.getRoomMembers "r" c2State).length - 1
       ∧ (∀ m, m ∈ RedisStateManager.getRoomMembers "r" c2State → m ≠ "a" →
            Effect.publish (RedisKeys.channel m) ⟨"ev", "d", 5, "a", none, false⟩
              ∈ broadcastToRoomEffects "a" "r" "ev" "d" 5 c2State)
       ∧ (∀ m2, Effect.publish (RedisKeys.channel "a") m2
            ∉ broadcastToRoomEffects "a" "r" "ev" "d" 5 c2State)
       ∧ (∀ s2 m2, Effect.enqueue s2 m2 ∉ broadcastToRoomEffects "a" "r" "ev" "d" 5 c2State)) :=
  ⟨⟨by decide, by decide⟩,
   c2_broadcast_publish_only c2State "a" "r" "ev" "d" 5 (by decide) (by decide)⟩

/-! ## Acknowledgment-registry lemmas -/

theorem ackRun_cons (s : AckState) (e : AckEvent) (rest : List AckEvent) :
    ackRun s (e :: rest) = ackRun (ackStep s e) rest := rfl

theorem ackStep_not_pending (s : AckState) (e : AckEvent) (mid : String)
    (h : mid ∉ s.pending) :
    callsFor (ackStep s e) mid = callsFor s mid ∧ mid ∉ (ackStep s e).pending := by
  cases e with
  | ackArrive m resp =>
    by_cases hm : m ∈ s.pending
    · have hmm : (m == mid) = false := by
        simp
        intro hEq
        exact h (hEq ▸ hm)
      refine ⟨?_, ?_⟩
      · simp [ackStep, hm, callsFor, List.filter_append, hmm]
      · simp only [ackStep, hm, if_pos]
        intro hx
        exact h (List.mem_of_mem_erase hx)
    · have hstep : ackStep s (AckEvent.ackArrive m resp) = s := by
        simp [ackStep, hm]
      rw [hstep]
      exact ⟨rfl, h⟩
  | timeoutFire m =>
    by_cases hm : m ∈ s.pending
    · have hmm : (m == mid) = false := by
        simp
        intro hEq
        exact h (hEq ▸ hm)
      refine ⟨?_, ?_⟩
      · simp [ackStep, hm, callsFor, List.filter_append, hmm]
      · simp only [ackStep, hm, if_pos]
        intro hx
        exact h (List.mem_of_mem_erase hx)
    · have hstep : ackStep s (AckEvent.timeoutFire m) = s := by
        simp [ackStep, hm]
      rw [hstep]
      exact ⟨rfl, h⟩

theorem ackRun_untouched (mid : String) :
    ∀ (evs : List AckEvent) (s : AckState), mid ∉ s.pending →
    callsFor (ackRun s evs) mid = callsFor s mid := by
  intro evs
  induction evs with
  | nil =>
    intro s h
    rfl
  | cons e rest ih =>
    intro s h
    have hs := ackStep_not_pending s e mid h
    rw [ackRun_cons, ih (ackStep s e) hs.2, hs.1]

theorem ackRun_first_relevant (mid : String) :
    ∀ (evs : List AckEvent) (s : AckState) (e0 : AckEvent),
    s.pending.Nodup → mid ∈ s.pending →
    evs.find? (isForMid mid) = some e0 →
    callsFor (ackRun s evs) mid = callsFor s mid ++ [evKind e0] := by
  intro evs
  induction evs with
  | nil =>
    intro s e0 hn hm hf
    simp at hf
  | cons e rest ih =>
    intro s e0 hn hm hf
    by_cases hrel : isForMid mid e = true
    · have he0 : e0 = e := by
        simp [List.find?_cons, hrel] at hf
        exact hf.symm
      subst he0
      cases e0 with
      | ackArrive m resp =>
        have hme : m = mid := by simpa [isForMid] using hrel
        subst hme
        rw [ackRun_cons]
        have hstep : ackStep s (AckEvent.ackArrive m resp)
            = ⟨s.pending.erase m, s.calls ++ [(m, AckCall.response resp)]⟩ := by
          simp [ackStep, hm]
        rw [hstep, ackRun_untouched m rest _ hn.not_mem_erase]
        simp [callsFor, List.filter_append, evKind]
      | timeoutFire m =>
        have hme : m = mid := by simpa [isForMid] using hrel
        subst hme
        rw [ackRun_cons]
        have hstep : ackStep s (AckEvent.timeoutFire m)
            = ⟨s.pending.erase m, s.calls ++ [(m, AckCall.timeoutError)]⟩ := by
          simp [ackStep, hm]
        rw [hstep, ackRun_untouched m rest _ hn.not_mem_erase]
        simp [callsFor, List.filter_append, evKind]
    · have hrel2 : isForMid mid e = false := by simpa using hrel
      have hf2 : rest.find? (isForMid mid) = some e0 := by
        simpa [List.find?_cons, hrel2] using hf
      cases e with
      | ackArrive m resp =>
        have hmm : (m == mid) = false := by simpa [isForMid] using hrel2
        have hmne : m ≠ mid := by simpa using hmm
        rw [ackRun_cons]
        by_cases hmp : m ∈ s.pending
        · have hstep : ackStep s (AckEvent.ackArrive m resp)
              = ⟨s.pending.erase m, s.calls ++ [(m, AckCall.response resp)]⟩ := by
            simp [ackStep, hmp]
          rw [hstep]
          have hm2 : mid ∈ s.pending.erase m :=
            (List.mem_erase_of_ne (Ne.symm hmne)).mpr hm
          rw [ih _ e0 (hn.erase m) hm2 hf2]
          simp [callsFor, List.filter_append, hmm]
        · have hstep : ackStep s (AckEvent.ackArrive m resp) = s := by
            simp [ackStep, hmp]
          rw [hstep]
          exact ih s e0 hn hm hf2
      | timeoutFire m =>
        have hmm : (m == mid) = false := by simpa [isForMid] using hrel2
        have hmne : m ≠ mid := by simpa using hmm
        rw [ackRun_cons]
        by_cases hmp : m ∈ s.pending
        · have hstep : ackStep s (AckEvent.timeoutFire m)
              = ⟨s.pending.erase m, s.calls ++ [(m, AckCall.timeoutError)]⟩ := by
            simp [ackStep, hmp]
          rw [hstep]
          have hm2 : mid ∈ s.pending.erase m :=
            (List.mem_erase_of_ne (Ne.symm hmne)).mpr hm
          rw [ih _ e0 (hn.erase m) hm2 hf2]
          simp [callsFor, List.filter_append, hmm]
        · have hstep : ackStep s (AckEvent.timeoutFire m) = s := by
            simp [ackStep, hmp]
          rw [hstep]
          exact ih s e0 hn hm hf2

/-- C5: after an emit that registered an acknowledgment callback for mid,
run any event sequence that contains the firing of the 5-second timeout for
mid (setTimeout guarantees it fires).  The callback is invoked exactly once;
it receives the consumer's response when a handleAck for mid comes first
(the ack arrived within the 5 s window), and the timeout error when the
timeout event comes first (no ack within 5 s); and an emit without a
callback never produces any callback invocation. -/
theorem c5_ack_exactly_once (mid : String) (evs : List AckEvent)
    (ht : AckEvent.timeoutFire mid ∈ evs) :
    (callsFor (ackRun (emitAckState mid) evs) mid).length = 1
    ∧ (∀ resp, evs.find? (isForMid mid) = some (AckEvent.ackArrive mid resp) →
        callsFor (ackRun (emitAckState mid) evs) mid = [AckCall.response resp])
    ∧ (evs.find? (isForMid mid) = some (AckEvent.timeoutFire mid) →
        callsFor (ackRun (emitAckState mid) evs) mid = [AckCall.timeoutError])
    ∧ callsFor (ackRun emitNoAckState evs) mid = [] := by
  have hsome : (evs.find? (isForMid mid)).isSome := by
    rw [List.find?_isSome]
    exact ⟨_, ht, by simp [isForMid]⟩
  obtain ⟨e0, hf⟩ := Option.isSome_iff_exists.mp hsome
  have hmain := ackRun_first_relevant mid evs (emitAckState mid) e0
    (List.nodup_singleton mid) (by simp [emitAckState]) hf
  have hinit : callsFor (emitAckState mid) mid = [] := rfl
  refine ⟨?_, ?_, ?_, ?_⟩
  · rw [hmain, hinit]
    simp
  · intro resp hfr
    have he : e0 = AckEvent.ackArrive mid resp := by
      have := hf.symm.trans hfr
      exact Option.some.inj this
    rw [hmain, hinit, he]
    simp [evKind]
  · intro hfr
    have he : e0 = AckEvent.timeoutFire mid := by
      have := hf.symm.trans hfr
      exact Option.some.inj this
    rw [hmain, hinit, he]
    simp [evKind]
  · exact ackRun_untouched mid evs emitNoAckState (by simp [emitNoAckState])

/-- C5 witness: an ack arriving before the timeout yields the single
response invocation on a concrete two-event trace. -/
theorem c5_ack_exactly_once_witness :
    (AckEvent.timeoutFire "m1"
        ∈ [AckEvent.ackArrive "m1" "ok", AckEvent.timeoutFire "m1"])
    ∧ ((callsFor (ackRun (emitAckState "m1")
          [AckEvent.ackArrive "m1" "ok", AckEvent.timeoutFire "m1"]) "m1").length = 1
       ∧ (∀ resp, [AckEvent.ackArrive "m1" "ok",
            AckEvent.timeoutFire "m1"].find? (isForMid "m1")
              = some (AckEvent.ackArrive "m1" resp) →
          callsFor (ackRun (emitAckState "m1")
            [AckEvent.ackArrive "m1" "ok", AckEvent.timeoutFire "m1"]) "m1"
              = [AckCall.response resp])
       ∧ ([AckEvent.ackArrive "m1" "ok",
            AckEvent.timeoutFire "m1"].find? (isForMid "m1")
              = some (AckEvent.timeoutFire "m1") →
          callsFor (ackRun (emitAckState "m1")
            [AckEvent.ackArrive "m1" "ok", AckEvent.timeoutFire "m1"]) "m1"
              = [AckCall.timeoutError])
       ∧ callsFor (ackRun emitNoAckState
            [AckEvent.ackArrive "m1" "ok", AckEvent.timeoutFire "m1"]) "m1" = []) :=
  ⟨by decide, c5_ack_exactly_once "m1"
    [AckEvent.ackArrive "m1" "ok", AckEvent.timeoutFire "m1"] (by decide)⟩

/-! ## Client dedupe lemmas -/

theorem clientHandle_of_mem (p : List String) (m : ClientMsg) (mid : String)
    (hm : m.messageId = some mid) (hx : mid ∈ p) :
    clientHandleMessage p m = (p, none) := by
  unfold clientHandleMessage
  rw [hm]
  simp [hx]

theorem clientHandle_mem_fst (p : List String) (m : ClientMsg) (mid : String)
    (hm : m.messageId = some mid) : mid ∈ (clientHandleMessage p m).1 := by
  unfold clientHandleMessage
  rw [hm]
  by_cases hx : mid ∈ p
  · simp [hx]
  · by_cases he : m.event = "__ack" <;> simp [hx, he]

theorem clientHandle_fst_mono (p : List String) (m : ClientMsg) (x : String)
    (hx : x ∈ p) : x ∈ (clientHandleMessage p m).1 := by
  unfold clientHandleMessage
  cases hmi : m.messageId with
  | none => simpa using hx
  | some mid =>
    by_cases hin : mid ∈ p
    · simpa [hin] using hx
    · by_cases he : m.event = "__ack" <;> simp [hin, he, hx]

theorem runClientMessages_mono (x : String) :
    ∀ (ms : List ClientMsg) (p : List String), x ∈ p → x ∈ runClientMessages p ms := by
  intro ms
  induction ms with
  | nil =>
    intro p hx
    exact hx
  | cons m rest ih =>
    intro p hx
    exact ih _ (clientHandle_fst_mono p m x hx)

/-- C9: once a message id has been processed, any later arrival of a message
with the same id is dropped before dispatch — no handler runs and the
recently-seen list is unchanged — no matter how many other messages were
processed in between; and the periodic trim keeps exactly the most recent
1000 entries once the list exceeds 10000. -/
theorem c9_dedupe_idempotent (processedIds : List String) (m : ClientMsg)
    (mid : String) (ms : List ClientMsg) (hm : m.messageId = some mid) :
    (clientHandleMessage
        (runClientMessages (clientHandleMessage processedIds m).1 ms) m).2 = none
    ∧ (clientHandleMessage
        (runClientMessages (clientHandleMessage processedIds m).1 ms) m).1
        = runClientMessages (clientHandleMessage processedIds m).1 ms
    ∧ (∀ p2 : List String, 10000 < p2.length →
        dedupeCleanup p2 = p2.drop (p2.length - 1000)
        ∧ (dedupeCleanup p2).length = 1000) := by
  have h1 : mid ∈ (clientHandleMessage processedIds m).1 :=
    clientHandle_mem_fst _ _ _ hm
  have h2 : mid ∈ runClientMessages (clientHandleMessage processedIds m).1 ms :=
    runClientMessages_mono mid ms _ h1
  have h3 := clientHandle_of_mem _ m mid hm h2
  refine ⟨by rw [h3], by rw [h3], ?_⟩
  intro p2 hlen
  constructor
  · unfold dedupeCleanup
    simp [hlen]
  · unfold dedupeCleanup
    simp [hlen]
    omega

/-- C9 witness: a replayed id on a concrete singleton trace dispatches
nothing and leaves the seen list unchanged. -/
theorem c9_dedupe_idempotent_witness :
    ((⟨"chat", "x", some "id1", none⟩ : ClientMsg).messageId = some "id1")
    ∧ ((clientHandleMessage
          (runClientMessages (clientHandleMessage [] ⟨"chat", "x", some "id1", none⟩).1
            [⟨"other", "y", some "id2", none⟩]) ⟨"chat", "x", some "id1", none⟩).2 = none
       ∧ (clientHandleMessage
          (runClientMessages (clientHandleMessage [] ⟨"chat", "x", some "id1", none⟩).1
            [⟨"other", "y", some "id2", none⟩]) ⟨"chat", "x", some "id1", none⟩).1
          = runClientMessages (clientHandleMessage [] ⟨"chat", "x", some "id1", none⟩).1
              [⟨"other", "y", some "id2", none⟩]
       ∧ (∀ p2 : List String, 10000 < p2.length →
            dedupeCleanup p2 = p2.drop (p2.length - 1000)
            ∧ (dedupeCleanup p2).length = 1000)) :=
  ⟨rfl, c9_dedupe_idempotent [] ⟨"chat", "x", some "id1", none⟩ "id1"
    [⟨"other", "y", some "id2", none⟩] rfl⟩

/-- C8: with reconnection enabled, every handleReconnect call below the
attempt cap schedules the retry for attempt number attemptsBefore+1 after
min(base * 2^(attempt-1) + jitter, maxDelay), where jitter is the
Math.random()*1000 draw; any call at or above the cap emits reconnect_failed
and schedules nothing; and the cap defaults to 10. -/
theorem c8_reconnect_backoff (o : ReconnectOptions) (attemptsBefore : Nat)
    (jitter : Rat) (hen : o.reconnect ≠ some false)
    (hlt : attemptsBefore < (configOfOptions o).maxReconnectAttempts) :
    handleReconnect (configOfOptions o) attemptsBefore jitter
      = ReconnectAction.schedule (attemptsBefore + 1)
          (min ((configOfOptions o).reconnectDelay * 2 ^ (attemptsBefore + 1 - 1) + jitter)
            (configOfOptions o).maxReconnectDelay)
    ∧ (∀ k, (configOfOptions o).maxReconnectAttempts ≤ k →
        handleReconnect (configOfOptions o) k jitter = ReconnectAction.stopFailed)
    ∧ (configOfOptions defaultReconnectOptions).maxReconnectAttempts = 10 := by
  have henb : (configOfOptions o).reconnectEnabled = true := by
    unfold configOfOptions
    cases hr : o.reconnect with
    | none => rfl
    | some b =>
      cases b with
      | false => exact absurd hr hen
      | true => rfl
  refine ⟨?_, ?_, rfl⟩
  · unfold handleReconnect
    rw [henb]
    simp [Nat.not_le.mpr hlt]
  · intro k hk
    unfold handleReconnect
    rw [henb]
    simp [hk]

/-- C8 witness: third retry of the default configuration is scheduled with
the exponential-with-jitter delay, and the cap stops retrying at 10. -/
theorem c8_reconnect_backoff_witness :
    (defaultReconnectOptions.reconnect ≠ some false
     ∧ 3 < (configOfOptions defaultReconnectOptions).maxReconnectAttempts)
    ∧ (handleReconnect (configOfOptions defaultReconnectOptions) 3 500
        = ReconnectAction.schedule 4
            (min ((configOfOptions defaultReconnectOptions).reconnectDelay
                * 2 ^ (3 + 1 - 1) + 500)
              (configOfOptions defaultReconnectOptions).maxReconnectDelay)
       ∧ (∀ k, (configOfOptions defaultReconnectOptions).maxReconnectAttempts ≤ k →
            handleReconnect (configOfOptions defaultReconnectOptions) k 500
              = ReconnectAction.stopFailed)
       ∧ (configOfOptions defaultReconnectOptions).maxReconnectAttempts = 10) :=
  ⟨⟨by decide, by decide⟩,
   c8_reconnect_backoff defaultReconnectOptions 3 500 (by decide) (by decide)⟩

/-- C1 (code bug, evaluation at the failing input): with session s1 live, in
room lobby and presence-tracked, and a registered disconnect handler that
throws, handleDisconnect propagates the handler's error after the room
memberships were released but before presence untrack and session deletion
run: the session record survives in the store and the presence entry
remains, contradicting the requirement that all disconnect cleanup completes
regardless of handler failure. -/
theorem c1_disconnect_skips_cleanup_when_handler_throws :
    (handleDisconnectE (some (Except.error "handler boom")) "s1" c1Server).1
      = Except.error "handler boom"
    ∧ getSessionVal
        (handleDisconnectE (some (Except.error "handler boom")) "s1" c1Server).2.redis
        (RedisKeys.session "s1") = some ⟨"s1", 0, 0, []⟩
    ∧ ("s1", "u1") ∈ (handleDisconnectE (some (Except.error "handler boom")) "s1"
        c1Server).2.presSocketToUser
    ∧ RedisStateManager.getRoomMembers "lobby"
        (handleDisconnectE (some (Except.error "handler boom")) "s1" c1Server).2.redis
        = [] := by
  refine ⟨rfl, by decide, by decide, by decide⟩
